import Mathlib

/-!
# Verification of the pepr3d text-to-mesh rasterizer core

Shallow embedding of `src/geometry/FontRasterizer.cpp` (namespace `pepr3d`).

Modelling conventions:
* Coordinates are rationals (`ℚ`), standing for the C++ `double`/`float`
  values; the claims under study are structural, not about rounding.
* The font engine (FreeType) and the vectoriser / triangulator libraries
  are external collaborators: they are modelled as a `FontEnv` record of
  functions supplying, per character, the vectorised contours, metrics,
  kerning, the containment predicate, and the constrained-Delaunay
  triangulation itself.  The repository code pipes data into them and
  transforms their output; that piping is what is embedded faithfully.
* `exit(0)` on a non-outline glyph format is modelled as an `Except.error`
  that aborts the whole rasterization call.
* The C++ `static` locals `prevCharIndex` / `prev_rsb_delta` are modelled
  as an explicit `LayoutState` threaded into and out of `rasterizeText`,
  so that the cross-call carry-over is expressible.
* The input string is consumed one byte at a time in the C++ code; a Lean
  `List Char` element stands for one input byte.
-/

namespace Pepr3d

/-- A 3D output vertex (`glm::vec3`-style `a`/`b`/`c` fields of `Tri`). -/
structure Vertex where
  x : ℚ
  y : ℚ
  z : ℚ
deriving DecidableEq

/-- One output triangle: three vertices stored by value (`FontRasterizer::Tri`). -/
structure Tri where
  a : Vertex
  b : Vertex
  c : Vertex
deriving DecidableEq

/-- A 2D triangulation point (`p2t::Point`). -/
structure P2 where
  x : ℚ
  y : ℚ
deriving DecidableEq

/-- One vectorised contour of a glyph: the flattened point list (in 1/64-unit
fixed-point font coordinates, as returned by `Contour::GetPoint`) and the
direction flag (`Contour::GetDirection`: `true` = outer boundary). -/
structure ContourData where
  points : List (ℚ × ℚ)
  direction : Bool
deriving DecidableEq

/-- Everything the font source / vectoriser reports for one glyph:
format flag, vectorised contours, the containment predicate between
contours (by index: `isInside i j` means contour `i` lies inside contour
`j`, the call `sm->IsInside(contour)` of the source), and the metrics used
by layout.  `isInside` comes from the external vectoriser library and is
kept abstract as input data. -/
structure GlyphData where
  formatOutline : Bool
  contours : List ContourData
  isInside : Nat → Nat → Bool
  advanceX : Int
  lsbDelta : Int
  rsbDelta : Int

/-- The external collaborators of the rasterizer, as one record:
FreeType-style font queries plus the poly2tri constrained-Delaunay
triangulation (`cdt domain holes` returns the triangle list that
`p2t::CDT::GetTriangles` would). `glyph` takes the font height and the
bezier-steps resolution first, because `FT_Set_Char_Size` and the
`Vectoriser` constructor parametrise the produced outline by them. -/
structure FontEnv where
  hasKerning : Bool
  charIndex : Char → Nat
  glyph : Nat → Nat → Char → GlyphData
  kerning : Nat → Nat → Int
  cdt : List P2 → List (List P2) → List (P2 × P2 × P2)

/-- The cross-character mutable state: the C++ `static FT_UInt prevCharIndex`
and `static FT_Pos prev_rsb_delta` of `addOneCharacter`. -/
structure LayoutState where
  prevCharIndex : Nat
  prevRsbDelta : Int
deriving DecidableEq

/-- The only error the rasterizer can raise: the `exit(0)` taken when
`glyph->format != FT_GLYPH_FORMAT_OUTLINE`. -/
inductive RasterError where
  | invalidGlyphFormat
deriving DecidableEq

instance {ε α : Type} [DecidableEq ε] [DecidableEq α] : DecidableEq (Except ε α) := fun a b =>
  match a, b with
  | .error e, .error e' =>
    match decEq e e' with
    | isTrue h => isTrue (by rw [h])
    | isFalse h => isFalse (by intro hc; cases hc; exact h rfl)
  | .ok v, .ok v' =>
    match decEq v v' with
    | isTrue h => isTrue (by rw [h])
    | isFalse h => isFalse (by intro hc; cases hc; exact h rfl)
  | .error _, .ok _ => isFalse (by intro hc; cases hc)
  | .ok _, .error _ => isFalse (by intro hc; cases hc)

/-- Arithmetic right shift by 6 bits (`x >> 6` on a signed `FT_Pos`):
floor division by 64. -/
def shr6 (n : Int) : Int := Int.fdiv n 64

/-- Embeds `FontRasterizer::triangulateContour`: build the `p2t` polyline for one
contour, dividing the fixed-point coordinates by 64 and adding the running
horizontal offset to the x-coordinate. -/
def triangulateContour (pts : List (ℚ × ℚ)) (offset : ℚ) : List P2 :=
  pts.map fun d => { x := d.1 / 64 + offset, y := d.2 / 64 }

/-- Index the elements of a list starting at `n` (the `for(size_t c = 0; ...)`
loops of the source iterate contours by index). -/
def idxFrom (n : Nat) : List α → List (Nat × α)
  | [] => []
  | a :: t => (n, a) :: idxFrom (n + 1) t

/-- The glyph's contours with their loop indices. -/
def contoursIdx (g : GlyphData) : List (Nat × ContourData) := idxFrom 0 g.contours

/-- The hole polylines handed to `p2t::CDT::AddHole` for the outer contour at
index `c`: every other contour with hole direction that is inside contour `c`
(`c != cm && !sm->GetDirection() && sm->IsInside(contour)`). -/
def holePolylines (g : GlyphData) (c : Nat) (offset : ℚ) : List (List P2) :=
  ((contoursIdx g).filter fun p => c != p.1 && !p.2.direction && g.isInside p.1 c).map
    fun p => triangulateContour p.2.points offset

/-- The triangulator invocations made for one glyph: one `(domain, holes)`
pair per contour whose direction flag is set (`if(contour->GetDirection())`),
in contour order. -/
def cdtCallsOfGlyph (g : GlyphData) (offset : ℚ) : List (List P2 × List (List P2)) :=
  ((contoursIdx g).filter fun p => p.2.direction).map fun p =>
    (triangulateContour p.2.points offset, holePolylines g p.1 offset)

/-- Write one `p2t` triangle into a `Tri`: x taken as-is, y negated,
z set to `0` (lines 154-166 of the source). -/
def toTri (t : P2 × P2 × P2) : Tri :=
  { a := { x := t.1.x, y := -t.1.y, z := 0 }
    b := { x := t.2.1.x, y := -t.2.1.y, z := 0 }
    c := { x := t.2.2.x, y := -t.2.2.y, z := 0 } }

/-- The kerning adjustment added to the offset: `kerning.x >> 6` when the
face has kerning and there is a previous character, else nothing
(`if(FT_HAS_KERNING(face) && prevCharIndex)`). -/
def kerningDelta (env : FontEnv) (st : LayoutState) (ch : Char) : ℚ :=
  if env.hasKerning && st.prevCharIndex != 0 then
    ((shr6 (env.kerning st.prevCharIndex (env.charIndex ch)) : Int) : ℚ)
  else 0

/-- The hinting nudge: `-1` when `prev_rsb_delta - lsb_delta >= 32`,
`+1` when `< -32`, else `0` (lines 113-116 of the source). -/
def hintDelta (st : LayoutState) (g : GlyphData) : ℚ :=
  if st.prevRsbDelta - g.lsbDelta ≥ 32 then -1
  else if st.prevRsbDelta - g.lsbDelta < -32 then 1
  else 0

/-- The running offset after the kerning and hinting corrections of one
character: the value used as the x-offset of every polyline of that glyph. -/
def adjustedOffset (env : FontEnv) (fh bs : Nat) (st : LayoutState) (ch : Char) (offset : ℚ) : ℚ :=
  offset + kerningDelta env st ch + hintDelta st (env.glyph fh bs ch)

/-- The advance added at the end of one character: `advance.x >> 6`. -/
def advanceDelta (g : GlyphData) : ℚ := ((shr6 g.advanceX : Int) : ℚ)

/-- Embeds `FontRasterizer::addOneCharacter`: process one input byte.  Aborts with
`invalidGlyphFormat` (the `exit(0)`) when the glyph is not outline-capable;
otherwise applies kerning and hinting to the offset, triangulates every
outer-direction contour with its contained holes, emits the triangles with
y negated and z = 0, and returns the triangles, the advanced offset, and the
updated cross-character state. -/
def addOneCharacter (env : FontEnv) (fh bs : Nat) (st : LayoutState) (ch : Char) (offset : ℚ) :
    Except RasterError (List Tri × ℚ × LayoutState) :=
  let curCharIndex := env.charIndex ch
  let g := env.glyph fh bs ch
  if g.formatOutline then
    let off2 := adjustedOffset env fh bs st ch offset
    let tris := ((cdtCallsOfGlyph g off2).map fun call => (env.cdt call.1 call.2).map toTri).flatten
    .ok (tris, off2 + advanceDelta g, { prevCharIndex := curCharIndex, prevRsbDelta := g.rsbDelta })
  else .error .invalidGlyphFormat

/-- The character loop of `rasterizeText`: process the string left to right,
one triangle list per input byte, threading the offset and the state. -/
def rasterizeAux (env : FontEnv) (fh bs : Nat) :
    List Char → LayoutState → ℚ → Except RasterError (List (List Tri) × ℚ × LayoutState)
  | [], st, off => .ok ([], off, st)
  | ch :: rest, st, off =>
    match addOneCharacter env fh bs st ch off with
    | .error e => .error e
    | .ok (tris, off', st') =>
      match rasterizeAux env fh bs rest st' off' with
      | .error e => .error e
      | .ok (runs, offF, stF) => .ok (tris :: runs, offF, stF)

/-- The exact value of `FLT_MAX`, the initial value of the running minimum in
`outlinePostprocess` (`std::numeric_limits<float>::max()`). -/
def fltMax : ℚ := (2 ^ 24 - 1) * 2 ^ 104

/-- One step of the minimum scan of `outlinePostprocess`: fold one triangle's
three y-coordinates into the running minimum, in source order `a`, `b`, `c`. -/
def triMinFold (m0 : ℚ) (t : Tri) : ℚ :=
  let m1 := if m0 > t.a.y then t.a.y else m0
  let m2 := if m1 > t.b.y then t.b.y else m1
  if m2 > t.c.y then t.c.y else m2

/-- The first pass of `outlinePostprocess`: the minimum y over all vertices of
all triangles of all letters, starting from `FLT_MAX`. -/
def meshMinY (m : List (List Tri)) : ℚ :=
  m.foldl (fun acc run => run.foldl triMinFold acc) fltMax

/-- The `abs` applied by the source to the found minimum. -/
def absQ (q : ℚ) : ℚ := if q < 0 then -q else q

/-- Shift every y-coordinate of a triangle up by `c` (the second pass of
`outlinePostprocess` applied to one triangle). -/
def shiftTriY (c : ℚ) (t : Tri) : Tri :=
  { a := { x := t.a.x, y := t.a.y + c, z := t.a.z }
    b := { x := t.b.x, y := t.b.y + c, z := t.b.z }
    c := { x := t.c.x, y := t.c.y + c, z := t.c.z } }

/-- Embeds `FontRasterizer::outlinePostprocess`: find the minimum y over the whole
mesh, then add its absolute value to every y-coordinate. -/
def outlinePostprocess (m : List (List Tri)) : List (List Tri) :=
  let addToZero := absQ (meshMinY m)
  m.map fun run => run.map (shiftTriY addToZero)

/-- Embeds `FontRasterizer::rasterizeText`: run the character loop from offset `0`,
post-process the y-axis, and return the per-letter triangle lists.  The final
offset is local to the call and is not part of the return value; the
`LayoutState` component models the C++ `static` locals that persist in the
process across calls. -/
def rasterizeText (env : FontEnv) (fh bs : Nat) (s : List Char) (st : LayoutState) :
    Except RasterError (List (List Tri) × LayoutState) :=
  match rasterizeAux env fh bs s st 0 with
  | .error e => .error e
  | .ok (runs, _, stF) => .ok (outlinePostprocess runs, stF)

/-- The internal final cursor of one `rasterizeText` call (the local
`offset` after the loop, which the source computes and then discards). -/
def finalCursor (env : FontEnv) (fh bs : Nat) (s : List Char) (st : LayoutState) :
    Except RasterError ℚ :=
  match rasterizeAux env fh bs s st 0 with
  | .error e => .error e
  | .ok (_, off, _) => .ok off

/-- The layout state and offset reached after processing a list of
characters, without collecting triangles (used to state which data the
`i`-th glyph run is produced from). -/
def layoutAfter (env : FontEnv) (fh bs : Nat) :
    List Char → LayoutState → ℚ → Except RasterError (LayoutState × ℚ)
  | [], st, off => .ok (st, off)
  | ch :: rest, st, off =>
    match addOneCharacter env fh bs st ch off with
    | .error e => .error e
    | .ok (_, off', st') => layoutAfter env fh bs rest st' off'

/-- The cursor advance contributed by a list of characters: per character,
kerning adjustment plus hinting nudge plus advance width, with the layout
state threaded through. -/
def totalAdvance (env : FontEnv) (fh bs : Nat) : List Char → LayoutState → ℚ
  | [], _ => 0
  | ch :: rest, st =>
    let g := env.glyph fh bs ch
    kerningDelta env st ch + hintDelta st g + advanceDelta g +
      totalAdvance env fh bs rest { prevCharIndex := env.charIndex ch, prevRsbDelta := g.rsbDelta }

/-- The y-coordinates of one triangle, in source scan order. -/
def triYs (t : Tri) : List ℚ := [t.a.y, t.b.y, t.c.y]

/-- All vertex y-coordinates of a mesh, letter by letter, triangle by
triangle. -/
def vertexYs (m : List (List Tri)) : List ℚ :=
  (m.map fun run => (run.map triYs).flatten).flatten

/-! ## Concrete collaborator instances used by the counterexamples and witnesses -/

/-- A triangulator stub: emit one triangle from the first three domain
points (enough to observe the coordinate pipeline on one contour). -/
def triCdt : List P2 → List (List P2) → List (P2 × P2 × P2)
  | p :: q :: r :: _, _ => [(p, q, r)]
  | _, _ => []

/-- A triangulator stub that emits a marker triangle exactly when handed a
degenerate domain of fewer than three points, so that receiving such a
domain is observable in the output. -/
def shortCdt : List P2 → List (List P2) → List (P2 × P2 × P2) :=
  fun dom _ =>
    if dom.length < 3 then
      [({ x := 0, y := 0 }, { x := 0, y := 0 }, { x := 0, y := 0 })]
    else []

/-- A right-triangle glyph sitting on the baseline, with a large right
side-bearing delta, advance `10` units, no kerning relevance. -/
def glyphA : GlyphData :=
  { formatOutline := true
    contours := [{ points := [(0, 0), (64, 0), (0, 64)], direction := true }]
    isInside := fun _ _ => false
    advanceX := 640
    lsbDelta := 0
    rsbDelta := 40 }

/-- A font environment built from `glyphA` for every character. -/
def envA : FontEnv :=
  { hasKerning := false
    charIndex := fun _ => 1
    glyph := fun _ _ _ => glyphA
    kerning := fun _ _ => 0
    cdt := triCdt }

/-- A glyph lying strictly below the baseline (like an underscore): after the
y-axis flip all its emitted vertices have strictly positive y. -/
def glyphLow : GlyphData :=
  { formatOutline := true
    contours := [{ points := [(0, -64), (64, -64), (0, -128)], direction := true }]
    isInside := fun _ _ => false
    advanceX := 640
    lsbDelta := 0
    rsbDelta := 0 }

/-- A font environment built from `glyphLow` for every character. -/
def envLow : FontEnv :=
  { hasKerning := false
    charIndex := fun _ => 1
    glyph := fun _ _ _ => glyphLow
    kerning := fun _ _ => 0
    cdt := triCdt }

/-- A bitmap-only glyph: the font source reports a non-outline format. -/
def glyphBitmap : GlyphData :=
  { formatOutline := false
    contours := []
    isInside := fun _ _ => false
    advanceX := 0
    lsbDelta := 0
    rsbDelta := 0 }

/-- A font environment whose every glyph is bitmap-only. -/
def envBitmap : FontEnv :=
  { hasKerning := false
    charIndex := fun _ => 1
    glyph := fun _ _ _ => glyphBitmap
    kerning := fun _ _ => 0
    cdt := triCdt }

/-- Three contours: two outer-direction triangles `A` (index 0) and `B`
(index 1) and one hole-direction triangle `H` (index 2), with the
containment predicate reporting `H` inside both `A` and `B`. -/
def glyphTwoOuters : GlyphData :=
  { formatOutline := true
    contours :=
      [ { points := [(0, 0), (640, 0), (0, 640)], direction := true },
        { points := [(64, 64), (192, 64), (64, 192)], direction := true },
        { points := [(128, 128), (192, 128), (128, 192)], direction := false } ]
    isInside := fun cm c => decide ((cm = 2 ∧ c = 0) ∨ (cm = 2 ∧ c = 1))
    advanceX := 640
    lsbDelta := 0
    rsbDelta := 0 }

/-- A glyph whose single outer-direction contour has only two points. -/
def glyphShort : GlyphData :=
  { formatOutline := true
    contours := [{ points := [(0, 0), (64, 0)], direction := true }]
    isInside := fun _ _ => false
    advanceX := 640
    lsbDelta := 0
    rsbDelta := 0 }

/-- A font environment built from `glyphShort` and the marking triangulator. -/
def envShort : FontEnv :=
  { hasKerning := false
    charIndex := fun _ => 1
    glyph := fun _ _ _ => glyphShort
    kerning := fun _ _ => 0
    cdt := shortCdt }

/-- A blank glyph (zero contours, e.g. a space) with the given advance. -/
def glyphBlank (adv : Int) : GlyphData :=
  { formatOutline := true
    contours := []
    isInside := fun _ _ => false
    advanceX := adv
    lsbDelta := 0
    rsbDelta := 0 }

/-- A font environment of blank glyphs with the given advance. -/
def envBlank (adv : Int) : FontEnv :=
  { hasKerning := false
    charIndex := fun _ => 3
    glyph := fun _ _ _ => glyphBlank adv
    kerning := fun _ _ => 0
    cdt := triCdt }

/-! ## Helper lemmas about the minimum scan -/

/-- The running-minimum update used by the scan, as a binary operation. -/
def qmin (x y : ℚ) : ℚ := if x > y then y else x

lemma qmin_le_left (x y : ℚ) : qmin x y ≤ x := by
  unfold qmin; split <;> linarith

lemma qmin_le_right (x y : ℚ) : qmin x y ≤ y := by
  unfold qmin; split <;> linarith

lemma foldl_qmin_le_init (l : List ℚ) (a : ℚ) : l.foldl qmin a ≤ a := by
  induction l generalizing a with
  | nil => simp
  | cons x t ih => exact le_trans (ih (qmin a x)) (qmin_le_left a x)

lemma foldl_qmin_le_mem {l : List ℚ} {y : ℚ} (a : ℚ) (hy : y ∈ l) : l.foldl qmin a ≤ y := by
  induction l generalizing a with
  | nil => cases hy
  | cons x t ih =>
    rcases List.mem_cons.mp hy with h | h
    · subst h
      exact le_trans (foldl_qmin_le_init t (qmin a y)) (qmin_le_right a y)
    · exact ih (qmin a x) h

lemma foldl_qmin_eq_init_or_mem (l : List ℚ) (a : ℚ) :
    l.foldl qmin a = a ∨ l.foldl qmin a ∈ l := by
  induction l generalizing a with
  | nil => exact Or.inl rfl
  | cons x t ih =>
    rcases ih (qmin a x) with h | h
    · by_cases hax : a > x
      · right
        rw [List.foldl_cons, h, qmin, if_pos hax]
        exact List.mem_cons_self x t
      · left
        rw [List.foldl_cons, h, qmin, if_neg hax]
    · right
      exact List.mem_cons_of_mem x h

lemma triMinFold_eq_foldl (m0 : ℚ) (t : Tri) : triMinFold m0 t = (triYs t).foldl qmin m0 := rfl

lemma meshMinY_eq_foldl (m : List (List Tri)) :
    meshMinY m = (vertexYs m).foldl qmin fltMax := by
  unfold meshMinY vertexYs
  rw [List.foldl_flatten, List.foldl_map]
  congr 1
  funext acc run
  rw [List.foldl_flatten, List.foldl_map]
  rfl

lemma fltMax_pos : 0 < fltMax := by norm_num [fltMax]

lemma triYs_shiftTriY (c : ℚ) (t : Tri) :
    triYs (shiftTriY c t) = (triYs t).map (fun y => y + c) := by
  simp [triYs, shiftTriY]

lemma vertexYs_postprocess (m : List (List Tri)) :
    vertexYs (outlinePostprocess m) =
      (vertexYs m).map (fun y => y + absQ (meshMinY m)) := by
  simp [outlinePostprocess, vertexYs, List.map_map, Function.comp_def, triYs_shiftTriY,
    List.map_flatten]

lemma absQ_nonneg (q : ℚ) : 0 ≤ absQ q := by
  unfold absQ; split <;> linarith

lemma add_absQ_self_nonpos {q : ℚ} (h : q ≤ 0) : q + absQ q = 0 := by
  unfold absQ
  split <;> linarith

/-! ## Helper lemmas about the character loop -/

lemma addOneCharacter_of_format_false {env : FontEnv} {fh bs : Nat} {st : LayoutState}
    {ch : Char} {off : ℚ} (h : (env.glyph fh bs ch).formatOutline = false) :
    addOneCharacter env fh bs st ch off = .error .invalidGlyphFormat := by
  simp [addOneCharacter, h]

lemma addOneCharacter_of_format_true {env : FontEnv} {fh bs : Nat} {st : LayoutState}
    {ch : Char} {off : ℚ} (h : (env.glyph fh bs ch).formatOutline = true) :
    addOneCharacter env fh bs st ch off =
      .ok (((cdtCallsOfGlyph (env.glyph fh bs ch) (adjustedOffset env fh bs st ch off)).map
              fun call => (env.cdt call.1 call.2).map toTri).flatten,
           adjustedOffset env fh bs st ch off + advanceDelta (env.glyph fh bs ch),
           { prevCharIndex := env.charIndex ch,
             prevRsbDelta := (env.glyph fh bs ch).rsbDelta }) := by
  simp [addOneCharacter, h]

lemma addOneCharacter_ok_inv {env : FontEnv} {fh bs : Nat} {st : LayoutState}
    {ch : Char} {off : ℚ} {tris : List Tri} {off' : ℚ} {st' : LayoutState}
    (h : addOneCharacter env fh bs st ch off = .ok (tris, off', st')) :
    (env.glyph fh bs ch).formatOutline = true ∧
    tris = ((cdtCallsOfGlyph (env.glyph fh bs ch) (adjustedOffset env fh bs st ch off)).map
              fun call => (env.cdt call.1 call.2).map toTri).flatten ∧
    off' = adjustedOffset env fh bs st ch off + advanceDelta (env.glyph fh bs ch) ∧
    st' = { prevCharIndex := env.charIndex ch,
            prevRsbDelta := (env.glyph fh bs ch).rsbDelta } := by
  by_cases hf : (env.glyph fh bs ch).formatOutline = true
  · rw [addOneCharacter_of_format_true hf] at h
    injection h with h
    injection h with h1 h
    injection h with h2 h3
    exact ⟨hf, h1.symm, h2.symm, h3.symm⟩
  · rw [addOneCharacter_of_format_false (Bool.not_eq_true _ ▸ hf)] at h
    cases h

lemma rasterizeText_ok_inv {env : FontEnv} {fh bs : Nat} {s : List Char} {st : LayoutState}
    {m : List (List Tri)} {stF : LayoutState}
    (h : rasterizeText env fh bs s st = .ok (m, stF)) :
    ∃ runs offF, rasterizeAux env fh bs s st 0 = .ok (runs, offF, stF) ∧
      m = outlinePostprocess runs := by
  unfold rasterizeText at h
  cases haux : rasterizeAux env fh bs s st 0 with
  | error e => rw [haux] at h; cases h
  | ok x =>
    obtain ⟨runs, offF, stF'⟩ := x
    rw [haux] at h
    injection h with h
    injection h with h1 h2
    exact ⟨runs, offF, by rw [h2], h1.symm⟩

lemma rasterizeAux_length {env : FontEnv} {fh bs : Nat} :
    ∀ (s : List Char) (st : LayoutState) (off : ℚ) {runs : List (List Tri)}
      {offF : ℚ} {stF : LayoutState},
      rasterizeAux env fh bs s st off = .ok (runs, offF, stF) → runs.length = s.length := by
  intro s
  induction s with
  | nil =>
    intro st off runs offF stF h
    unfold rasterizeAux at h
    injection h with h
    injection h with h1 _
    rw [← h1]
    rfl
  | cons c0 rest ih =>
    intro st off runs offF stF h
    unfold rasterizeAux at h
    split at h
    · cases h
    · rename_i tris off' st' heq
      split at h
      · cases h
      · rename_i runs' offF' stF' heq2
        injection h with h
        injection h with h3 _
        rw [← h3]
        simp [ih st' off' heq2]

lemma rasterizeAux_get {env : FontEnv} {fh bs : Nat} :
    ∀ (s : List Char) (st : LayoutState) (off : ℚ) {runs : List (List Tri)}
      {offF : ℚ} {stF : LayoutState},
      rasterizeAux env fh bs s st off = .ok (runs, offF, stF) →
      ∀ (i : Nat) (ch : Char), s.get? i = some ch →
      ∃ sti offi tris offi' sti',
        layoutAfter env fh bs (s.take i) st off = .ok (sti, offi) ∧
        addOneCharacter env fh bs sti ch offi = .ok (tris, offi', sti') ∧
        runs.get? i = some tris := by
  intro s
  induction s with
  | nil =>
    intro st off runs offF stF h i ch hch
    cases hch
  | cons c0 rest ih =>
    intro st off runs offF stF h i ch hch
    unfold rasterizeAux at h
    split at h
    · cases h
    · rename_i tris off' st' heq
      split at h
      · cases h
      · rename_i runs' offF' stF' heq2
        injection h with h
        injection h with h3 h
        cases i with
        | zero =>
          injection hch with hch
          subst hch
          refine ⟨st, off, tris, off', st', rfl, heq, ?_⟩
          rw [← h3]
          rfl
        | succ j =>
          have hch' : rest.get? j = some ch := hch
          obtain ⟨sti, offi, tris2, offi', sti', hla, hadd, hget⟩ :=
            ih st' off' heq2 j ch hch'
          refine ⟨sti, offi, tris2, offi', sti', ?_, hadd, ?_⟩
          · show layoutAfter env fh bs (c0 :: rest.take j) st off = .ok (sti, offi)
            unfold layoutAfter
            rw [heq]
            exact hla
          · rw [← h3]
            exact hget

lemma rasterizeAux_error_of_bad_format {env : FontEnv} {fh bs : Nat} :
    ∀ (s : List Char) (st : LayoutState) (off : ℚ) {ch : Char},
      ch ∈ s → (env.glyph fh bs ch).formatOutline = false →
      rasterizeAux env fh bs s st off = .error .invalidGlyphFormat := by
  intro s
  induction s with
  | nil =>
    intro st off ch hch
    cases hch
  | cons c0 rest ih =>
    intro st off ch hch hfmt
    by_cases h0 : (env.glyph fh bs c0).formatOutline = true
    · have hch' : ch ∈ rest := by
        rcases List.mem_cons.mp hch with h | h
        · subst h; rw [h0] at hfmt; cases hfmt
        · exact h
      have hrec := ih
        { prevCharIndex := env.charIndex c0, prevRsbDelta := (env.glyph fh bs c0).rsbDelta }
        (adjustedOffset env fh bs st c0 off + advanceDelta (env.glyph fh bs c0)) hch' hfmt
      unfold rasterizeAux
      rw [addOneCharacter_of_format_true h0]
      simp only [hrec]
    · have h0' : (env.glyph fh bs c0).formatOutline = false := by
        cases hf : (env.glyph fh bs c0).formatOutline
        · rfl
        · exact absurd hf h0
      unfold rasterizeAux
      rw [addOneCharacter_of_format_false h0']

lemma rasterizeAux_offset {env : FontEnv} {fh bs : Nat} :
    ∀ (s : List Char) (st : LayoutState) (off : ℚ) {runs : List (List Tri)}
      {offF : ℚ} {stF : LayoutState},
      rasterizeAux env fh bs s st off = .ok (runs, offF, stF) →
      offF = off + totalAdvance env fh bs s st := by
  intro s
  induction s with
  | nil =>
    intro st off runs offF stF h
    injection h with h
    injection h with _ h
    injection h with h2 _
    rw [← h2, totalAdvance]
    ring
  | cons c0 rest ih =>
    intro st off runs offF stF h
    unfold rasterizeAux at h
    split at h
    · cases h
    · rename_i tris off' st' heq
      split at h
      · cases h
      · rename_i runs' offF' stF' heq2
        injection h with h
        injection h with _ h
        injection h with h2 _
        obtain ⟨_, _, hoff', hst'⟩ := addOneCharacter_ok_inv heq
        rw [← h2, ih st' off' heq2, hoff', hst', totalAdvance, adjustedOffset]
        ring

lemma mem_idxFrom_snd : ∀ {n : Nat} {l : List α} {p : Nat × α}, p ∈ idxFrom n l → p.2 ∈ l := by
  intro n l
  induction l generalizing n with
  | nil => intro p h; cases h
  | cons a t ih =>
    intro p h
    rcases List.mem_cons.mp h with h | h
    · subst h
      exact List.mem_cons_self a t
    · exact List.mem_cons_of_mem a (ih h)

/-! ## Claim C1 -/

/-- Claim C1, amended.  For every successful `rasterizeText` call, every
vertex y-coordinate of the returned mesh is non-negative; and a vertex with
y-coordinate exactly `0` exists (so the minimum is exactly `0`) whenever the
pre-normalization mesh's scanned minimum is `≤ 0`.  The unconditional
"minimum is exactly 0" of the claim fails: when every pre-normalization
vertex has positive y, `outlinePostprocess` adds `abs(min) = min` and the
minimum doubles instead of becoming `0` (see the counterexample). -/
theorem C1_normalization_amended (env : FontEnv) (fh bs : Nat) (s : List Char)
    (st : LayoutState) (m : List (List Tri)) (stF : LayoutState)
    (h : rasterizeText env fh bs s st = .ok (m, stF)) :
    (∀ y ∈ vertexYs m, 0 ≤ y) ∧
    (∀ runs offF stF', rasterizeAux env fh bs s st 0 = .ok (runs, offF, stF') →
      meshMinY runs ≤ 0 → 0 ∈ vertexYs m) := by
  obtain ⟨runs0, offF0, haux0, hm⟩ := rasterizeText_ok_inv h
  subst hm
  constructor
  · intro y hy
    rw [vertexYs_postprocess] at hy
    obtain ⟨y0, hy0, rfl⟩ := List.mem_map.mp hy
    have hmin : meshMinY runs0 ≤ y0 := by
      rw [meshMinY_eq_foldl]
      exact foldl_qmin_le_mem fltMax hy0
    unfold absQ
    split
    · linarith
    · rename_i hnot
      push_neg at hnot
      linarith
  · intro runs offF stF' haux hminle
    rw [haux0] at haux
    injection haux with haux
    injection haux with h1 _
    subst h1
    have hmem : meshMinY runs0 ∈ vertexYs runs0 := by
      rcases foldl_qmin_eq_init_or_mem (vertexYs runs0) fltMax with he | hmem'
      · rw [meshMinY_eq_foldl, he] at hminle
        exact absurd hminle (not_le.mpr fltMax_pos)
      · rw [meshMinY_eq_foldl]
        exact hmem'
    rw [vertexYs_postprocess]
    exact List.mem_map.mpr ⟨meshMinY runs0, hmem, add_absQ_self_nonpos hminle⟩

/-- Claim C1, counterexample to "the minimum y-coordinate is exactly 0":
rasterizing a below-the-baseline glyph succeeds with a non-empty mesh whose
vertex y-coordinates are `[2, 2, 3]` — minimum `2`, not `0` (the
pre-normalization y-coordinates were `[1, 1, 2]` and the code added
`abs(1) = 1` to each). -/
theorem C1_counterexample :
    rasterizeText envLow 1 1 ['a'] { prevCharIndex := 0, prevRsbDelta := 0 } =
      .ok ([[{ a := { x := 0, y := 2, z := 0 }, b := { x := 1, y := 2, z := 0 },
               c := { x := 0, y := 3, z := 0 } }]],
           { prevCharIndex := 1, prevRsbDelta := 0 }) ∧
    vertexYs [[{ a := { x := 0, y := 2, z := 0 }, b := { x := 1, y := 2, z := 0 },
                 c := { x := 0, y := 3, z := 0 } }]] = [2, 2, 3] ∧
    (0 : ℚ) ∉ [(2 : ℚ), 2, 3] := by
  refine ⟨?_, ?_, ?_⟩
  · norm_num [rasterizeText, rasterizeAux, addOneCharacter, adjustedOffset, kerningDelta,
      hintDelta, advanceDelta, envLow, glyphLow, shr6, Int.fdiv, cdtCallsOfGlyph, contoursIdx,
      idxFrom, holePolylines, triangulateContour, triCdt, toTri, outlinePostprocess, meshMinY,
      triMinFold, absQ, fltMax, shiftTriY]
  · norm_num [vertexYs, triYs]
  · norm_num

/-- Claim C1, witness for the amended theorem: on `envA` the pre-normalization
minimum is `-1 ≤ 0` and the theorem yields a vertex at `y = 0`. -/
theorem C1_witness :
    0 ∈ vertexYs (outlinePostprocess
      [[{ a := { x := 0, y := 0, z := 0 }, b := { x := 1, y := 0, z := 0 },
          c := { x := 0, y := -1, z := 0 } }]]) :=
  (C1_normalization_amended envA 1 1 ['a'] { prevCharIndex := 0, prevRsbDelta := 0 }
      (outlinePostprocess
        [[{ a := { x := 0, y := 0, z := 0 }, b := { x := 1, y := 0, z := 0 },
            c := { x := 0, y := -1, z := 0 } }]])
      { prevCharIndex := 1, prevRsbDelta := 40 }
      (by norm_num [rasterizeText, rasterizeAux, addOneCharacter, adjustedOffset, kerningDelta,
        hintDelta, advanceDelta, envA, glyphA, shr6, Int.fdiv, cdtCallsOfGlyph, contoursIdx,
        idxFrom, holePolylines, triangulateContour, triCdt, toTri])).2
    [[{ a := { x := 0, y := 0, z := 0 }, b := { x := 1, y := 0, z := 0 },
        c := { x := 0, y := -1, z := 0 } }]]
    10 { prevCharIndex := 1, prevRsbDelta := 40 }
    (by norm_num [rasterizeAux, addOneCharacter, adjustedOffset, kerningDelta,
      hintDelta, advanceDelta, envA, glyphA, shr6, Int.fdiv, cdtCallsOfGlyph, contoursIdx,
      idxFrom, holePolylines, triangulateContour, triCdt, toTri])
    (by norm_num [meshMinY, triMinFold, fltMax])

/-! ## Claim C2 -/

/-- Claim C2 fails on the code: the `static` locals of `addOneCharacter`
survive across calls.  Two consecutive `rasterizeText` calls with identical
arguments differ: the first starts from the pristine state
`(prevCharIndex, prev_rsb_delta) = (0, 0)`, the second starts from the state
`(1, 40)` left behind by the first, whose carried `prev_rsb_delta = 40`
makes `prev_rsb_delta - lsb_delta = 40 ≥ 32` fire the hinting nudge and
shift the second call's triangles one unit to the left. -/
theorem C2_code_bug :
    rasterizeText envA 1 1 ['a'] { prevCharIndex := 0, prevRsbDelta := 0 } =
      .ok ([[{ a := { x := 0, y := 1, z := 0 }, b := { x := 1, y := 1, z := 0 },
               c := { x := 0, y := 0, z := 0 } }]],
           { prevCharIndex := 1, prevRsbDelta := 40 }) ∧
    rasterizeText envA 1 1 ['a'] { prevCharIndex := 1, prevRsbDelta := 40 } =
      .ok ([[{ a := { x := -1, y := 1, z := 0 }, b := { x := 0, y := 1, z := 0 },
               c := { x := -1, y := 0, z := 0 } }]],
           { prevCharIndex := 1, prevRsbDelta := 40 }) ∧
    ([[{ a := { x := 0, y := 1, z := 0 }, b := { x := 1, y := 1, z := 0 },
         c := { x := 0, y := 0, z := 0 } }]] : List (List Tri)) ≠
      [[{ a := { x := -1, y := 1, z := 0 }, b := { x := 0, y := 1, z := 0 },
          c := { x := -1, y := 0, z := 0 } }]] := by
  refine ⟨?_, ?_, ?_⟩
  · norm_num [rasterizeText, rasterizeAux, addOneCharacter, adjustedOffset, kerningDelta,
      hintDelta, advanceDelta, envA, glyphA, shr6, Int.fdiv, cdtCallsOfGlyph, contoursIdx,
      idxFrom, holePolylines, triangulateContour, triCdt, toTri, outlinePostprocess, meshMinY,
      triMinFold, absQ, fltMax, shiftTriY]
  · norm_num [rasterizeText, rasterizeAux, addOneCharacter, adjustedOffset, kerningDelta,
      hintDelta, advanceDelta, envA, glyphA, shr6, Int.fdiv, cdtCallsOfGlyph, contoursIdx,
      idxFrom, holePolylines, triangulateContour, triCdt, toTri, outlinePostprocess, meshMinY,
      triMinFold, absQ, fltMax, shiftTriY]
  · norm_num [Tri.mk.injEq, Vertex.mk.injEq]

/-! ## Claim C3 -/

/-- Claim C3.  When any character of the input has a glyph whose format is
not outline-capable, the whole rasterization call aborts with the
`invalidGlyphFormat` error — an outcome distinct from any `ok` result, in
particular from an empty mesh; no `TextMesh` is returned. -/
theorem C3_bad_format_aborts (env : FontEnv) (fh bs : Nat) (s : List Char)
    (st : LayoutState) (ch : Char) (hch : ch ∈ s)
    (hfmt : (env.glyph fh bs ch).formatOutline = false) :
    rasterizeText env fh bs s st = .error .invalidGlyphFormat ∧
    ∀ m stF, rasterizeText env fh bs s st ≠ .ok (m, stF) := by
  have herr := rasterizeAux_error_of_bad_format s st 0 hch hfmt
  constructor
  · unfold rasterizeText
    rw [herr]
  · intro m stF hok
    unfold rasterizeText at hok
    rw [herr] at hok
    cases hok

/-- Claim C3, witness: a bitmap-only font makes the call abort with the
format error. -/
theorem C3_witness :
    rasterizeText envBitmap 1 1 ['a'] { prevCharIndex := 0, prevRsbDelta := 0 } =
      .error .invalidGlyphFormat :=
  (C3_bad_format_aborts envBitmap 1 1 ['a'] { prevCharIndex := 0, prevRsbDelta := 0 } 'a'
    (by simp) (by norm_num [envBitmap, glyphBitmap])).1

/-! ## Claim C4 -/

/-- Claim C4.  A successful `rasterizeText` call returns exactly one glyph
run per input byte: the output has the input's length, the empty input
yields the empty mesh (normalization included, with no special case), and
the run at index `i` is the triangle list produced by `addOneCharacter` for
the `i`-th input byte at the layout state reached after the first `i` bytes,
up to the single global y-shift of the normalization pass. -/
theorem C4_one_run_per_byte (env : FontEnv) (fh bs : Nat) (s : List Char)
    (st : LayoutState) (m : List (List Tri)) (stF : LayoutState)
    (h : rasterizeText env fh bs s st = .ok (m, stF)) :
    m.length = s.length ∧
    (s = [] → m = []) ∧
    ∃ c : ℚ, ∀ (i : Nat) (ch : Char), s.get? i = some ch →
      ∃ sti offi tris offi' sti',
        layoutAfter env fh bs (s.take i) st 0 = .ok (sti, offi) ∧
        addOneCharacter env fh bs sti ch offi = .ok (tris, offi', sti') ∧
        m.get? i = some (tris.map (shiftTriY c)) := by
  obtain ⟨runs0, offF0, haux0, hm⟩ := rasterizeText_ok_inv h
  subst hm
  have hlen : runs0.length = s.length := rasterizeAux_length s st 0 haux0
  refine ⟨?_, ?_, ?_⟩
  · simpa [outlinePostprocess] using hlen
  · intro hs
    subst hs
    have h0 : runs0 = [] := List.length_eq_zero.mp hlen
    subst h0
    rfl
  · refine ⟨absQ (meshMinY runs0), ?_⟩
    intro i ch hch
    obtain ⟨sti, offi, tris, offi', sti', hla, hadd, hget⟩ :=
      rasterizeAux_get s st 0 haux0 i ch hch
    refine ⟨sti, offi, tris, offi', sti', hla, hadd, ?_⟩
    show (outlinePostprocess runs0).get? i = _
    unfold outlinePostprocess
    rw [List.get?_map, hget]
    rfl

/-- Claim C4, witness: on `envA` with input `['a']` the output has exactly
one glyph run. -/
theorem C4_witness :
    ([[{ a := { x := 0, y := 1, z := 0 }, b := { x := 1, y := 1, z := 0 },
         c := { x := 0, y := 0, z := 0 } }]] : List (List Tri)).length = ['a'].length :=
  (C4_one_run_per_byte envA 1 1 ['a'] { prevCharIndex := 0, prevRsbDelta := 0 }
    [[{ a := { x := 0, y := 1, z := 0 }, b := { x := 1, y := 1, z := 0 },
        c := { x := 0, y := 0, z := 0 } }]]
    { prevCharIndex := 1, prevRsbDelta := 40 }
    (by norm_num [rasterizeText, rasterizeAux, addOneCharacter, adjustedOffset, kerningDelta,
      hintDelta, advanceDelta, envA, glyphA, shr6, Int.fdiv, cdtCallsOfGlyph, contoursIdx,
      idxFrom, holePolylines, triangulateContour, triCdt, toTri, outlinePostprocess, meshMinY,
      triMinFold, absQ, fltMax, shiftTriY])).1

/-! ## Claim C5 -/

/-- Claim C5.  Every triangle a character emits is written from a
triangulator output triangle: each vertex takes the triangulation point's
x as-is, its y negated, and z exactly `0`; and every point handed to the
triangulator (domain or hole) is a contour point scaled by `1/64` with the
running cursor offset (after kerning and hinting) added to its
x-coordinate only. -/
theorem C5_vertex_transform (env : FontEnv) (fh bs : Nat) (st : LayoutState)
    (ch : Char) (off : ℚ) (tris : List Tri) (off' : ℚ) (st' : LayoutState)
    (h : addOneCharacter env fh bs st ch off = .ok (tris, off', st')) :
    (∀ t ∈ tris,
      ∃ call ∈ cdtCallsOfGlyph (env.glyph fh bs ch) (adjustedOffset env fh bs st ch off),
      ∃ p ∈ env.cdt call.1 call.2,
        t.a = { x := p.1.x, y := -p.1.y, z := 0 } ∧
        t.b = { x := p.2.1.x, y := -p.2.1.y, z := 0 } ∧
        t.c = { x := p.2.2.x, y := -p.2.2.y, z := 0 }) ∧
    (∀ call ∈ cdtCallsOfGlyph (env.glyph fh bs ch) (adjustedOffset env fh bs st ch off),
      ∀ pl ∈ call.1 :: call.2, ∀ q ∈ pl,
        ∃ ct ∈ (env.glyph fh bs ch).contours, ∃ d ∈ ct.points,
          q = { x := d.1 / 64 + adjustedOffset env fh bs st ch off, y := d.2 / 64 }) := by
  obtain ⟨hfmt, htris, _, _⟩ := addOneCharacter_ok_inv h
  constructor
  · intro t ht
    rw [htris, List.mem_flatten] at ht
    obtain ⟨l, hl, htl⟩ := ht
    rw [List.mem_map] at hl
    obtain ⟨call, hcall, rfl⟩ := hl
    rw [List.mem_map] at htl
    obtain ⟨p, hp, rfl⟩ := htl
    exact ⟨call, hcall, p, hp, rfl, rfl, rfl⟩
  · intro call hcall pl hpl q hq
    rw [cdtCallsOfGlyph, List.mem_map] at hcall
    obtain ⟨pct, hpct, rfl⟩ := hcall
    rw [List.mem_filter] at hpct
    obtain ⟨hmem, hdir⟩ := hpct
    rcases List.mem_cons.mp hpl with rfl | hhole
    · rw [triangulateContour, List.mem_map] at hq
      obtain ⟨d, hd, rfl⟩ := hq
      exact ⟨pct.2, mem_idxFrom_snd hmem, d, hd, rfl⟩
    · rw [holePolylines, List.mem_map] at hhole
      obtain ⟨pcm, hpcm, rfl⟩ := hhole
      rw [List.mem_filter] at hpcm
      rw [triangulateContour, List.mem_map] at hq
      obtain ⟨d, hd, rfl⟩ := hq
      exact ⟨pcm.2, mem_idxFrom_snd hpcm.1, d, hd, rfl⟩

/-- Claim C5, witness: the single triangle emitted for `'a'` on `envA` comes
from a triangulator triangle with y negated and z zero. -/
theorem C5_witness :
    ∃ call ∈ cdtCallsOfGlyph (envA.glyph 1 1 'a')
        (adjustedOffset envA 1 1 { prevCharIndex := 0, prevRsbDelta := 0 } 'a' 0),
    ∃ p ∈ envA.cdt call.1 call.2,
      ({ a := { x := 0, y := 0, z := 0 }, b := { x := 1, y := 0, z := 0 },
         c := { x := 0, y := -1, z := 0 } } : Tri).a = { x := p.1.x, y := -p.1.y, z := 0 } ∧
      ({ a := { x := 0, y := 0, z := 0 }, b := { x := 1, y := 0, z := 0 },
         c := { x := 0, y := -1, z := 0 } } : Tri).b = { x := p.2.1.x, y := -p.2.1.y, z := 0 } ∧
      ({ a := { x := 0, y := 0, z := 0 }, b := { x := 1, y := 0, z := 0 },
         c := { x := 0, y := -1, z := 0 } } : Tri).c = { x := p.2.2.x, y := -p.2.2.y, z := 0 } :=
  (C5_vertex_transform envA 1 1 { prevCharIndex := 0, prevRsbDelta := 0 } 'a' 0
    [{ a := { x := 0, y := 0, z := 0 }, b := { x := 1, y := 0, z := 0 },
       c := { x := 0, y := -1, z := 0 } }] 10 { prevCharIndex := 1, prevRsbDelta := 40 }
    (by norm_num [addOneCharacter, adjustedOffset, kerningDelta, hintDelta, advanceDelta,
      envA, glyphA, shr6, Int.fdiv, cdtCallsOfGlyph, contoursIdx, idxFrom, holePolylines,
      triangulateContour, triCdt, toTri])).1
    { a := { x := 0, y := 0, z := 0 }, b := { x := 1, y := 0, z := 0 },
      c := { x := 0, y := -1, z := 0 } } (by simp)

/-! ## Claim C6 -/

/-- Claim C6.  The hinting correction nudges the cursor by exactly `-1` unit
when `prev_rsb_delta - lsb_delta ≥ 32`, by exactly `+1` unit when that
difference is `< -32`, and leaves it unchanged otherwise; and after the
character, the glyph's right side-bearing delta becomes the carried value
for the next character. -/
theorem C6_hinting_thresholds (env : FontEnv) (fh bs : Nat) (st : LayoutState)
    (ch : Char) (offset : ℚ) :
    (st.prevRsbDelta - (env.glyph fh bs ch).lsbDelta ≥ 32 →
      adjustedOffset env fh bs st ch offset = offset + kerningDelta env st ch - 1) ∧
    (st.prevRsbDelta - (env.glyph fh bs ch).lsbDelta < -32 →
      adjustedOffset env fh bs st ch offset = offset + kerningDelta env st ch + 1) ∧
    (-32 ≤ st.prevRsbDelta - (env.glyph fh bs ch).lsbDelta →
      st.prevRsbDelta - (env.glyph fh bs ch).lsbDelta < 32 →
      adjustedOffset env fh bs st ch offset = offset + kerningDelta env st ch) ∧
    (∀ tris off' st', addOneCharacter env fh bs st ch offset = .ok (tris, off', st') →
      st'.prevRsbDelta = (env.glyph fh bs ch).rsbDelta) := by
  refine ⟨?_, ?_, ?_, ?_⟩
  · intro hge
    rw [adjustedOffset, hintDelta, if_pos hge]
    ring
  · intro hlt
    have hn : ¬ (st.prevRsbDelta - (env.glyph fh bs ch).lsbDelta ≥ 32) := by omega
    rw [adjustedOffset, hintDelta, if_neg hn, if_pos hlt]
  · intro h1 h2
    have hn1 : ¬ (st.prevRsbDelta - (env.glyph fh bs ch).lsbDelta ≥ 32) := by omega
    have hn2 : ¬ (st.prevRsbDelta - (env.glyph fh bs ch).lsbDelta < -32) := by omega
    rw [adjustedOffset, hintDelta, if_neg hn1, if_neg hn2]
    ring
  · intro tris off' st' h
    obtain ⟨_, _, _, hst⟩ := addOneCharacter_ok_inv h
    rw [hst]

/-- Claim C6, witness: with carried `prev_rsb_delta = 40` and `lsb_delta = 0`
the difference is `40 ≥ 32` and the cursor is nudged by exactly `-1`. -/
theorem C6_witness :
    adjustedOffset envA 1 1 { prevCharIndex := 1, prevRsbDelta := 40 } 'a' 0 =
      0 + kerningDelta envA { prevCharIndex := 1, prevRsbDelta := 40 } 'a' - 1 :=
  (C6_hinting_thresholds envA 1 1 { prevCharIndex := 1, prevRsbDelta := 40 } 'a' 0).1
    (by norm_num [envA, glyphA])

/-! ## Claim C7 -/

/-- Claim C7, amended.  A hole polyline is handed to the triangulator only
for outer-direction contours, only from hole-direction contours the
containment predicate places inside that outer, and distinct from it
(first conjunct exactly as claimed); but the hole is attached to *every*
containing outer-direction contour — the code has no smaller-area
preference (second conjunct, replacing the claimed uniqueness). -/
theorem C7_hole_attachment_amended (g : GlyphData) (off : ℚ) :
    (∀ call ∈ cdtCallsOfGlyph g off,
      ∃ c ct, (c, ct) ∈ contoursIdx g ∧ ct.direction = true ∧
        call.1 = triangulateContour ct.points off ∧
        ∀ hp ∈ call.2, ∃ cm sm, (cm, sm) ∈ contoursIdx g ∧ sm.direction = false ∧
          g.isInside cm c = true ∧ c ≠ cm ∧ hp = triangulateContour sm.points off) ∧
    (∀ c ct cm sm, (c, ct) ∈ contoursIdx g → (cm, sm) ∈ contoursIdx g →
      ct.direction = true → sm.direction = false → g.isInside cm c = true → c ≠ cm →
      ∃ call ∈ cdtCallsOfGlyph g off,
        call.1 = triangulateContour ct.points off ∧
        triangulateContour sm.points off ∈ call.2) := by
  constructor
  · intro call hcall
    rw [cdtCallsOfGlyph, List.mem_map] at hcall
    obtain ⟨p, hp, rfl⟩ := hcall
    rw [List.mem_filter] at hp
    refine ⟨p.1, p.2, hp.1, hp.2, rfl, ?_⟩
    intro hp' hmem
    rw [holePolylines, List.mem_map] at hmem
    obtain ⟨q, hq, rfl⟩ := hmem
    rw [List.mem_filter] at hq
    obtain ⟨hqmem, hcond⟩ := hq
    simp only [Bool.and_eq_true, bne_iff_ne, Bool.not_eq_true'] at hcond
    exact ⟨q.1, q.2, hqmem, hcond.1.2, hcond.2, hcond.1.1, rfl⟩
  · intro c ct cm sm hc hcm hdir hsdir hin hne
    refine ⟨(triangulateContour ct.points off, holePolylines g c off), ?_, rfl, ?_⟩
    · rw [cdtCallsOfGlyph, List.mem_map]
      exact ⟨(c, ct), List.mem_filter.mpr ⟨hc, hdir⟩, rfl⟩
    · rw [holePolylines, List.mem_map]
      refine ⟨(cm, sm), ?_, rfl⟩
      rw [List.mem_filter]
      refine ⟨hcm, ?_⟩
      simp [hsdir, hin, hne]

/-- Claim C7, counterexample to "associated with the smaller-area containing
candidate only": with two outer triangles `A` (large, index 0) and
`B` (small, index 1) both containing hole `H` (index 2), the code hands the
hole polyline to *both* triangulator calls. -/
theorem C7_counterexample :
    cdtCallsOfGlyph glyphTwoOuters 0 =
      [ ([{ x := 0, y := 0 }, { x := 10, y := 0 }, { x := 0, y := 10 }],
         [[{ x := 2, y := 2 }, { x := 3, y := 2 }, { x := 2, y := 3 }]]),
        ([{ x := 1, y := 1 }, { x := 3, y := 1 }, { x := 1, y := 3 }],
         [[{ x := 2, y := 2 }, { x := 3, y := 2 }, { x := 2, y := 3 }]]) ] := by
  norm_num [cdtCallsOfGlyph, contoursIdx, idxFrom, holePolylines, triangulateContour,
    glyphTwoOuters]

/-- Claim C7, witness for the amended theorem: hole `H` is attached to the
larger outer `A` as well (index 0), exactly because the containment
predicate places it inside `A`. -/
theorem C7_witness :
    ∃ call ∈ cdtCallsOfGlyph glyphTwoOuters 0,
      call.1 = triangulateContour [(0, 0), (640, 0), (0, 640)] 0 ∧
      triangulateContour [(128, 128), (192, 128), (128, 192)] 0 ∈ call.2 :=
  (C7_hole_attachment_amended glyphTwoOuters 0).2 0
    { points := [(0, 0), (640, 0), (0, 640)], direction := true } 2
    { points := [(128, 128), (192, 128), (128, 192)], direction := false }
    (by norm_num [contoursIdx, idxFrom, glyphTwoOuters])
    (by norm_num [contoursIdx, idxFrom, glyphTwoOuters])
    rfl rfl (by norm_num [glyphTwoOuters]) (by norm_num)

/-! ## Claim C8 -/

/-- Claim C8 fails on the code: there is no point-count check anywhere in
the pipeline.  A two-point outer-direction contour is handed to the
triangulator as a domain (first conjunct), and with a triangulator that
reacts to such degenerate input the character does *not* contribute zero
triangles (second conjunct): the marker triangle shows the degenerate
domain reached the triangulator. -/
theorem C8_code_bug :
    cdtCallsOfGlyph glyphShort 0 = [([{ x := 0, y := 0 }, { x := 1, y := 0 }], [])] ∧
    rasterizeText envShort 1 1 ['a'] { prevCharIndex := 0, prevRsbDelta := 0 } =
      .ok ([[{ a := { x := 0, y := 0, z := 0 }, b := { x := 0, y := 0, z := 0 },
               c := { x := 0, y := 0, z := 0 } }]],
           { prevCharIndex := 1, prevRsbDelta := 0 }) := by
  constructor
  · norm_num [cdtCallsOfGlyph, contoursIdx, idxFrom, holePolylines, triangulateContour,
      glyphShort]
  · norm_num [rasterizeText, rasterizeAux, addOneCharacter, adjustedOffset, kerningDelta,
      hintDelta, advanceDelta, envShort, glyphShort, shr6, Int.fdiv, cdtCallsOfGlyph,
      contoursIdx, idxFrom, holePolylines, triangulateContour, shortCdt, toTri,
      outlinePostprocess, meshMinY, triMinFold, absQ, fltMax, shiftTriY]

/-! ## Claim C9 -/

/-- Claim C9, amended.  The internal final cursor of a call equals the sum
over the characters of kerning adjustment, hinting nudge, and advance
width — but it is not part of `rasterizeText`'s return value (the
counterexample shows the returned data cannot determine it). -/
theorem C9_final_cursor_amended (env : FontEnv) (fh bs : Nat) (s : List Char)
    (st : LayoutState) (v : ℚ) (h : finalCursor env fh bs s st = .ok v) :
    v = totalAdvance env fh bs s st := by
  unfold finalCursor at h
  cases haux : rasterizeAux env fh bs s st 0 with
  | error e => rw [haux] at h; cases h
  | ok x =>
    obtain ⟨runs, offF, stF⟩ := x
    rw [haux] at h
    injection h with h
    rw [← h, rasterizeAux_offset s st 0 haux, zero_add]

/-- Claim C9, counterexample to "the entry point returns the final cursor
value to the caller": two fonts differing only in the space glyph's advance
width produce identical `rasterizeText` return values while their final
cursors differ (`5` vs `7`), so the returned value cannot contain the final
cursor. -/
theorem C9_counterexample :
    rasterizeText (envBlank 320) 1 1 [' '] { prevCharIndex := 0, prevRsbDelta := 0 } =
      rasterizeText (envBlank 448) 1 1 [' '] { prevCharIndex := 0, prevRsbDelta := 0 } ∧
    finalCursor (envBlank 320) 1 1 [' '] { prevCharIndex := 0, prevRsbDelta := 0 } = .ok 5 ∧
    finalCursor (envBlank 448) 1 1 [' '] { prevCharIndex := 0, prevRsbDelta := 0 } = .ok 7 := by
  refine ⟨?_, ?_, ?_⟩ <;>
    norm_num [rasterizeText, finalCursor, rasterizeAux, addOneCharacter, adjustedOffset,
      kerningDelta, hintDelta, advanceDelta, envBlank, glyphBlank, shr6, Int.fdiv,
      cdtCallsOfGlyph, contoursIdx, idxFrom, holePolylines, triangulateContour, triCdt,
      toTri, outlinePostprocess, meshMinY, triMinFold, absQ, fltMax, shiftTriY]

/-- Claim C9, witness for the amended theorem: on `envA` the internal final
cursor `10` is the character's advance sum. -/
theorem C9_witness :
    (10 : ℚ) = totalAdvance envA 1 1 ['a'] { prevCharIndex := 0, prevRsbDelta := 0 } :=
  C9_final_cursor_amended envA 1 1 ['a'] { prevCharIndex := 0, prevRsbDelta := 0 } 10
    (by norm_num [finalCursor, rasterizeAux, addOneCharacter, adjustedOffset, kerningDelta,
      hintDelta, advanceDelta, envA, glyphA, shr6, Int.fdiv, cdtCallsOfGlyph, contoursIdx,
      idxFrom, holePolylines, triangulateContour, triCdt, toTri])

/-! ## Claim C10 -/

/-- Claim C10.  The normalization pass is a pure uniform vertical
translation: one constant is added to the y-coordinate of every vertex of
every triangle while x and z coordinates, the number and order of letters
and triangles — and hence every pairwise difference of y-coordinates — are
unchanged. -/
theorem C10_uniform_translation (m : List (List Tri)) :
    ∃ c : ℚ, outlinePostprocess m = m.map fun run => run.map fun t =>
      { a := { x := t.a.x, y := t.a.y + c, z := t.a.z },
        b := { x := t.b.x, y := t.b.y + c, z := t.b.z },
        c := { x := t.c.x, y := t.c.y + c, z := t.c.z } } :=
  ⟨absQ (meshMinY m), rfl⟩

end Pepr3d
